import Mathlib

/-!
# Marketing Coach Agent: the page component `Home` (src/pages/index.js)

The page keeps four pieces of React state (`form`, `result`, `activeTab`,
`isGenerating`) and a handful of event handlers.  The handlers are embedded
below as functions on an explicit state record.  The two functions the page
imports from `../lib/agent` (`generateAll`, `composeMarkdown`) are not part
of the sources; the page model takes them as parameters, and a second part
of the file models them from the specification.
-/

set_option autoImplicit false

namespace MarketingCoach

/-! ## Page state -/

/-- What the property `channels` of the form object can hold.  The page
creates it as an array of strings and `toggleChannel` always writes an array
back; the computed key in `onChange` can store a string under any property
name, which is why `toggleChannel` guards with `Array.isArray`. -/
inductive ChannelsValue where
  | array (items : List String)
  | text (value : String)
  deriving DecidableEq

/-- The form object of `useState` (index.js:6-16).  `extra` holds the
properties that a computed key of `onChange` may add besides the nine the
page declares, in insertion order. -/
structure Form where
  niche : String
  idealCustomer : String
  product : String
  primaryGoal : String
  voice : String
  pricePoint : String
  channels : ChannelsValue
  competitors : String
  differentiator : String
  extra : List (String × String)
  deriving DecidableEq

/-- The initial value of `form` (index.js:6-16). -/
def initialForm : Form :=
  { niche := "Coaching"
    idealCustomer := "Busy founders"
    product := "Marketing strategy + content engine"
    primaryGoal := "More qualified leads"
    voice := "Clear & Actionable"
    pricePoint := "Mid"
    channels := .array ["LinkedIn", "Twitter", "Email"]
    competitors := ""
    differentiator := "Simple frameworks that ship weekly results"
    extra := [] }

/-- The four `useState` cells of `Home` (index.js:6-20); `result` is `null`
or the value `generateAll` returned. -/
structure PageState (β : Type) where
  form : Form
  result : Option β
  activeTab : String
  isGenerating : Bool

/-- The state of the first render (index.js:6-20). -/
def initialState (β : Type) : PageState β :=
  { form := initialForm, result := none, activeTab := "inputs", isGenerating := false }

/-- The constant `channelOptions` (index.js:71). -/
def channelOptions : List String :=
  ["LinkedIn", "Twitter", "Instagram", "YouTube", "Email", "Blog"]

/-- The `name` attributes of the inputs, selects and textareas that carry
`onChange={onChange}` (index.js:91-128). -/
def fieldNames : List String :=
  ["niche", "idealCustomer", "product", "primaryGoal", "voice", "pricePoint",
   "competitors", "differentiator"]

/-- The tab names of the navigation bar (index.js:153). -/
def tabNames : List String :=
  ["inputs", "profile", "pains", "desires", "offers", "plan", "markdown"]

/-! ## Event handlers -/

/-- The handler `toggleChannel` (index.js:24-30). -/
def toggleChannel (channel : String) (form : Form) : Form :=
  let current : List String :=
    match form.channels with
    | .array items => items
    | .text _ => []
  let next : List String :=
    if current.contains channel then current.filter (fun c => c != channel)
    else current ++ [channel]
  { form with channels := .array next }

/-- Writing a property that is not one of the nine declared ones: an existing
key keeps its place and takes the new value, a new key goes to the end. -/
def setExtra : List (String × String) → String → String → List (String × String)
  | [], name, value => [(name, value)]
  | (k, v) :: rest, name, value =>
    if k = name then (k, value) :: rest else (k, v) :: setExtra rest name value

/-- The handler `onChange` (index.js:32-35): the object spread with the
computed key `[name]: value`, for the `name` and `value` of the event's
target. -/
def onChange (name value : String) (form : Form) : Form :=
  if name = "niche" then { form with niche := value }
  else if name = "idealCustomer" then { form with idealCustomer := value }
  else if name = "product" then { form with product := value }
  else if name = "primaryGoal" then { form with primaryGoal := value }
  else if name = "voice" then { form with voice := value }
  else if name = "pricePoint" then { form with pricePoint := value }
  else if name = "channels" then { form with channels := .text value }
  else if name = "competitors" then { form with competitors := value }
  else if name = "differentiator" then { form with differentiator := value }
  else { form with extra := setExtra form.extra name value }

/-- The outcome of running `onGenerate`: the state React commits and, when
`generateAll` threw, the error with which the promise returned by the
`async` handler is rejected (there is no `catch`, index.js:40-46). -/
structure GenerateOutcome (ε β : Type) where
  state : PageState β
  rejected : Option ε

/-- The handler `onGenerate` (index.js:37-47), with the imported
`generateAll` as a parameter: a call that throws is `Except.error`. -/
def onGenerate {ε β : Type} (generateAll : Form → Except ε β) (s : PageState β) :
    GenerateOutcome ε β :=
  -- setIsGenerating(true)
  let s1 : PageState β := { s with isGenerating := true }
  -- try { const out = generateAll(form); setResult(out); setActiveTab('plan') }
  let body : PageState β × Option ε :=
    match generateAll s.form with
    | .ok out =>
      let s2 : PageState β := { s1 with result := some out }
      let s3 : PageState β := { s2 with activeTab := "plan" }
      (s3, none)
    | .error err => (s1, some err)
  -- finally { setIsGenerating(false) }
  { state := { body.1 with isGenerating := false }, rejected := body.2 }

/-- The handler `resetAll` (index.js:66-69). -/
def resetAll {β : Type} (s : PageState β) : PageState β :=
  let s1 : PageState β := { s with result := none }
  { s1 with activeTab := "inputs" }

/-- The memoised `markdown` (index.js:22), with the imported
`composeMarkdown` and the property read `result.inputs` as parameters. -/
def markdown {ι β : Type} (composeMarkdown : ι → β → String) (inputs : β → ι)
    (result : Option β) : String :=
  match result with
  | some r => composeMarkdown (inputs r) r
  | none => ""

/-- What a handler does outside React state. -/
inductive Effect where
  | clipboardWrite (text : String)
  | alert (message : String)
  | download (fileName mimeType content : String)
  deriving DecidableEq

/-- The handler `copyMarkdown` (index.js:49-53). -/
def copyMarkdown (markdown : String) : List Effect :=
  if markdown = "" then []
  else [.clipboardWrite markdown, .alert "Markdown copied to clipboard"]

/-- The handler `downloadMarkdown` (index.js:55-64): a blob of the markdown
is offered under the name `marketing-game-plan.md`. -/
def downloadMarkdown (markdown : String) : List Effect :=
  if markdown = "" then []
  else [.download "marketing-game-plan.md" "text/markdown;charset=utf-8" markdown]

/-- The events a user can raise on the page. -/
inductive Event where
  | toggle (channel : String)
  | change (name value : String)
  | generate
  | reset
  | tab (name : String)
  | copy
  | download
  deriving DecidableEq

/-- One event applied to the page state; `copy` and `download` leave React
state alone. -/
def step {ε β : Type} (generateAll : Form → Except ε β) (s : PageState β) :
    Event → PageState β
  | .toggle channel => { s with form := toggleChannel channel s.form }
  | .change name value => { s with form := onChange name value s.form }
  | .generate => (onGenerate generateAll s).state
  | .reset => resetAll s
  | .tab name => { s with activeTab := name }
  | .copy => s
  | .download => s

/-- The state after a sequence of events, oldest first. -/
def run {ε β : Type} (generateAll : Form → Except ε β) (s : PageState β)
    (events : List Event) : PageState β :=
  events.foldl (step generateAll) s

/-- The events the rendered page can raise: a checkbox of `channelOptions`
toggles its own channel (index.js:135-139), and `onChange` is bound to the
eight inputs of `fieldNames` only (index.js:91-128). -/
def isUiEvent : Event → Bool
  | .toggle channel => channelOptions.contains channel
  | .change name _ => fieldNames.contains name
  | _ => true

/-! ## The generation pipeline of `../lib/agent`

The module is imported by the page (index.js:3) and is not among the
sources.  The definitions of this section follow the specification's data
model (§3) and component contracts (§4, §6, §7).  The specification fixes no
wording for the generated copy; the texts below are placeholders.  The
category names and the tier names are those the specification gives as
examples (§4.2, §4.4). -/

/-- Modelled from the spec: the enumeration `voice` of `InputProfile` (§3);
lib/agent is missing from the sources. -/
inductive Voice where
  | clearActionable
  | friendlyEncouraging
  | boldContrarian
  | professionalDataDriven
  deriving DecidableEq

/-- Modelled from the spec: the enumeration `pricePoint` of `InputProfile`
(§3); lib/agent is missing from the sources. -/
inductive PricePoint where
  | low
  | mid
  | high
  deriving DecidableEq

/-- Modelled from the spec: the enumeration of channels of `InputProfile`
(§3); lib/agent is missing from the sources. -/
inductive Channel where
  | linkedIn
  | twitter
  | instagram
  | youTube
  | email
  | blog
  deriving DecidableEq

/-- Modelled from the spec: `InputProfile` (§3), with the enumerated fields
as closed variants (§9).  `channels` is a set: the list is read through
membership only (see `selectedChannels`). -/
structure InputProfile where
  niche : String
  idealCustomer : String
  product : String
  primaryGoal : String
  voice : Voice
  pricePoint : PricePoint
  channels : List Channel
  competitors : String
  differentiator : String
  deriving DecidableEq

/-- Modelled from the spec: `customerProfile` of `GeneratedBundle` (§3). -/
structure CustomerProfile where
  summary : String
  demographics : List String
  psychographics : List String
  deriving DecidableEq

/-- Modelled from the spec: one element of `painPoints` (§3). -/
structure PainPointGroup where
  category : String
  items : List String
  deriving DecidableEq

/-- Modelled from the spec: one element of `offerLadder` (§3). -/
structure OfferTier where
  name : String
  price : String
  promise : String
  components : List String
  deriving DecidableEq

/-- Modelled from the spec: a repurpose entry, a (channel, format) pair
(§3, glossary). -/
structure RepurposeEntry where
  channel : Channel
  format : String
  deriving DecidableEq

/-- Modelled from the spec: one entry of `contentPlan` (§3). -/
structure ContentPlanDay where
  day : Nat
  idea : String
  cta : String
  repurpose : List RepurposeEntry
  deriving DecidableEq

/-- Modelled from the spec: `GeneratedBundle` (§3), the five derived
sections. -/
structure GeneratedBundle where
  customerProfile : CustomerProfile
  painPoints : List PainPointGroup
  dreamsDesires : List String
  offerLadder : List OfferTier
  contentPlan : List ContentPlanDay
  deriving DecidableEq

/-- Modelled from the spec: the six recognised channels in the order §3
lists them; lib/agent is missing from the sources. -/
def allChannels : List Channel :=
  [.linkedIn, .twitter, .instagram, .youTube, .email, .blog]

/-- Modelled from the spec: the name under which the page and the markdown
show a channel (§3; lib/agent is missing from the sources). -/
def Channel.label : Channel → String
  | .linkedIn => "LinkedIn"
  | .twitter => "Twitter"
  | .instagram => "Instagram"
  | .youTube => "YouTube"
  | .email => "Email"
  | .blog => "Blog"

/-- Modelled from the spec: the format paired with each channel (§4.5:
LinkedIn carousel, Twitter thread, Email newsletter segment, Blog long-form
post, Instagram reel, YouTube short); lib/agent is missing from the
sources. -/
def Channel.format : Channel → String
  | .linkedIn => "carousel"
  | .twitter => "thread"
  | .instagram => "reel"
  | .youTube => "short"
  | .email => "newsletter segment"
  | .blog => "long-form post"

/-- Modelled from the spec: generic phrasing for an empty free-text field
(§4.1: a populated structure even for sparse input). -/
def orGeneric (text generic : String) : String :=
  if text = "" then generic else text

/-- Modelled from the spec: the tone a voice gives to generated copy (§3);
the wording is a placeholder. -/
def Voice.lead : Voice → String
  | .clearActionable => "In short: "
  | .friendlyEncouraging => "Good news: "
  | .boldContrarian => "Contrary to common advice: "
  | .professionalDataDriven => "By the numbers: "

/-- Modelled from the spec: ProfileSynthesizer (§4.1): a summary from niche,
ideal customer and primary goal in the tone of the voice; demographics from
ideal customer and niche; psychographics from primary goal and
differentiator. -/
def synthesize (p : InputProfile) : CustomerProfile :=
  { summary :=
      p.voice.lead ++ orGeneric p.idealCustomer "Your customers" ++ " in " ++
        orGeneric p.niche "your market" ++ " want " ++
        orGeneric p.primaryGoal "a better result" ++ "."
    demographics :=
      ["Audience: " ++ orGeneric p.idealCustomer "your customers",
       "Market: " ++ orGeneric p.niche "your market"]
    psychographics :=
      ["Goal: " ++ orGeneric p.primaryGoal "a better result",
       "Values: " ++ orGeneric p.differentiator "a clear difference"] }

/-- Modelled from the spec: PainPointExtractor (§4.2): the fixed categories
Time & Capacity, Confidence & Clarity, Cost & ROI, Visibility & Trust, with
items templated from niche, ideal customer, competitors and differentiator;
the phrase that names the competitors is left out when there are none. -/
def extract (p : InputProfile) : List PainPointGroup :=
  [ { category := "Time & Capacity"
      items := ["No time left for marketing in " ++ orGeneric p.niche "the business"] },
    { category := "Confidence & Clarity"
      items := ["Unsure what " ++ orGeneric p.idealCustomer "the customer" ++ " needs to hear"] },
    { category := "Cost & ROI"
      items :=
        (if p.competitors = "" then [] else ["Paid for " ++ p.competitors ++ " without a return"])
          ++ ["Spend with no measurable return"] },
    { category := "Visibility & Trust"
      items := ["Hard to show " ++ orGeneric p.differentiator "what sets them apart"] } ]

/-- Modelled from the spec: DesireGenerator (§4.3): outcome statements from
primary goal, product and price point, the most goal-aligned first; higher
price points use higher-stakes language. -/
def generateDesires (p : InputProfile) : List String :=
  [ orGeneric p.primaryGoal "A better result" ++ ", reliably",
    (match p.pricePoint with
      | .low => "A quick win from "
      | .mid => "Steady growth from "
      | .high => "A category-leading position from ") ++ orGeneric p.product "the offer" ]

/-- Modelled from the spec: the pricing bracket of a price point (§4.4),
the three tier prices in ascending order; the amounts are an implementation
choice. -/
def PricePoint.bracket : PricePoint → List Nat
  | .low => [29, 99, 299]
  | .mid => [99, 499, 1999]
  | .high => [499, 2999, 9999]

/-- Modelled from the spec: OfferLadderBuilder (§4.4): the tiers entry,
core, premium in ascending price, the promise from product and
differentiator, more components the higher the tier. -/
def build (p : InputProfile) : List OfferTier :=
  let promise : String :=
    orGeneric p.product "The offer" ++ ": " ++ orGeneric p.differentiator "built to deliver"
  let components : List (List String) :=
    [["Template pack"],
     ["Template pack", "Group workshop"],
     ["Template pack", "Group workshop", "One-to-one coaching"]]
  (List.zip ["Entry", "Core", "Premium"] (List.zip p.pricePoint.bracket components)).map
    fun t => { name := t.1, price := "$" ++ toString t.2.1, promise := promise, components := t.2.2 }

/-- Modelled from the spec: the members of the set `channels`, each once, in
the order of `allChannels` (§3: order of selection is irrelevant, membership
is what matters). -/
def selectedChannels (p : InputProfile) : List Channel :=
  allChannels.filter fun c => decide (c ∈ p.channels)

/-- Modelled from the spec: how many channels one day is repurposed for, an
implementation choice (§4.5: a rotating subset). -/
def repurposePerDay : Nat := 2

/-- Modelled from the spec: the repurpose list of a day (§4.5): the selected
channels rotated by the day index, the first `repurposePerDay` of them, each
with its format; empty when no channel is selected. -/
def repurposeFor (p : InputProfile) (day : Nat) : List RepurposeEntry :=
  (((selectedChannels p).rotate (day - 1)).take repurposePerDay).map
    fun c => { channel := c, format := c.format }

/-- Modelled from the spec: the pool of idea templates, instantiated with
niche and primary goal (§4.5); the wording is a placeholder. -/
def ideaPool (p : InputProfile) : List String :=
  [ "A myth about " ++ orGeneric p.niche "your market",
    "A step towards " ++ orGeneric p.primaryGoal "a better result",
    "A customer story from " ++ orGeneric p.niche "your market",
    "A mistake that delays " ++ orGeneric p.primaryGoal "a better result",
    "A behind-the-scenes look",
    "A question from the audience",
    "A checklist for this week" ]

/-- Modelled from the spec: the offset a voice gives to the idea cycle
(§4.5: seeded by voice). -/
def Voice.seed : Voice → Nat
  | .clearActionable => 0
  | .friendlyEncouraging => 1
  | .boldContrarian => 2
  | .professionalDataDriven => 3

/-- Modelled from the spec: the idea of a day (§4.5): the pool is cycled by
day index, so consecutive days take different templates. -/
def ideaFor (p : InputProfile) (day : Nat) : String :=
  p.voice.lead ++ (ideaPool p).getD ((day - 1 + p.voice.seed) % (ideaPool p).length) ""

/-- Modelled from the spec: the call to action, aligned to the primary goal
(§4.5). -/
def ctaFor (p : InputProfile) : String :=
  "Reply to get " ++ orGeneric p.primaryGoal "a better result"

/-- Modelled from the spec: ContentPlanScheduler (§4.5): one entry for each
of the days 1..30. -/
def schedule (p : InputProfile) : List ContentPlanDay :=
  (List.range 30).map fun i =>
    { day := i + 1, idea := ideaFor p (i + 1), cta := ctaFor p, repurpose := repurposeFor p (i + 1) }

/-- Modelled from the spec: the entry point `generate` of §6, which the page
imports as `generateAll`: the five sections, each from its component of
§4. -/
def generateAll (p : InputProfile) : GeneratedBundle :=
  { customerProfile := synthesize p
    painPoints := extract p
    dreamsDesires := generateDesires p
    offerLadder := build p
    contentPlan := schedule p }

/-- Modelled from the spec: the concatenation of the parts of a document, in
order (§4.6); lib/agent is missing from the sources. -/
def concatAll : List String → String
  | [] => ""
  | part :: rest => part ++ concatAll rest

/-- Modelled from the spec: the characters the composer never writes as
they stand (§4.6, §9): number sign, backtick, asterisk, underscore, the
backslash itself, and the two line-break characters. -/
def isMarkdownControl (c : Char) : Bool :=
  c == '#' || c == Char.ofNat 96 || c == '*' || c == '_' || c == '\\' || c == '\n' || c == '\r'

/-- Modelled from the spec: the escaping policy of the composer (§4.6: free
text must not break markdown syntax, at least nothing that closes a heading
or a code block; §9: a conservative rule).  A line break becomes a blank, any
other control character is preceded by a backslash. -/
def escapeChar (c : Char) : List Char :=
  if c == '\n' || c == '\r' then [ ' ']
  else if isMarkdownControl c then [ '\\', c]
  else [c]

/-- Modelled from the spec: `escapeChar` over the characters of a text
(§4.6). -/
def escapeChars : List Char → List Char
  | [] => []
  | c :: rest => escapeChar c ++ escapeChars rest

/-- Modelled from the spec: a text of the profile or of the bundle as the
composer writes it into the document (§4.6). -/
def escapeText (text : String) : String :=
  String.mk (escapeChars text.data)

/-- Modelled from the spec: a markdown bullet list, one line per item
(§4.6). -/
def bullets (items : List String) : String :=
  concatAll (items.map fun item => "- " ++ escapeText item ++ "\n")

/-- Modelled from the spec: the block of one pain-point category, a
sub-heading and its items (§4.6). -/
def painBlock (g : PainPointGroup) : String :=
  concatAll ["### ", escapeText g.category, "\n", bullets g.items, "\n"]

/-- Modelled from the spec: the block of one offer tier (§4.6). -/
def offerBlock (o : OfferTier) : String :=
  concatAll ["### ", escapeText o.name, " (", escapeText o.price, ")\n", escapeText o.promise,
    "\n", bullets o.components, "\n"]

/-- Modelled from the spec: a channel/format pair, rendered inline
(§4.6). -/
def repurposeInline (r : RepurposeEntry) : String :=
  r.channel.label ++ ": " ++ escapeText r.format

/-- Modelled from the spec: the entry of one day of the content plan, with
its channel/format pairs inline (§4.6). -/
def dayLine (d : ContentPlanDay) : String :=
  "- Day " ++ toString d.day ++ ": " ++ escapeText d.idea ++ " (CTA: " ++ escapeText d.cta ++
    ") " ++ String.intercalate ", " (d.repurpose.map repurposeInline) ++ "\n"

/-- Modelled from the spec: the document of §4.6 in its fixed section order:
title from niche and product, Customer Profile, Pain Points, Dreams &
Desires, Offer Ladder, 30-Day Content Plan.  Every text that comes from the
profile or the bundle is written through `escapeText`, so that free text can
neither end a heading nor open a heading or a code block of its own. -/
def renderDocument (niche product : String) (b : GeneratedBundle) : String :=
  concatAll
    [ "# Marketing Game Plan: ", escapeText niche, " / ", escapeText product, "\n\n",
      "## Customer Profile\n\n", escapeText b.customerProfile.summary, "\n\n",
      "### Demographics\n", bullets b.customerProfile.demographics, "\n",
      "### Psychographics\n", bullets b.customerProfile.psychographics, "\n",
      "## Pain Points\n\n", concatAll (b.painPoints.map painBlock),
      "## Dreams & Desires\n\n", bullets b.dreamsDesires, "\n",
      "## Offer Ladder\n\n", concatAll (b.offerLadder.map offerBlock),
      "## 30-Day Content Plan\n\n", concatAll (b.contentPlan.map dayLine) ]

/-- Modelled from the spec: the entry point `compose` of §6, which the page
imports as `composeMarkdown`. -/
def composeMarkdown (p : InputProfile) (b : GeneratedBundle) : String :=
  renderDocument p.niche p.product b

/-- Modelled from the spec: `text` occurs in `document` as a substring
(§8, markdown containment). -/
def containsText (document text : String) : Prop :=
  text.data <:+: document.data

instance (document text : String) : Decidable (containsText document text) :=
  inferInstanceAs (Decidable (text.data <:+: document.data))

/-- A linear check that in a list of characters no `x` is immediately
followed by `y`. -/
def pairFree (x y : Char) : List Char → Bool
  | a :: b :: rest => !(a == x && b == y) && pairFree x y (b :: rest)
  | _ => true

/-! ### The pipeline as the page calls it

The page passes its form object, whose enumerated fields are strings and
whose `channels` is whatever the form holds. -/

/-- Modelled from the spec: `ValidationError` (§7), raised for a value
outside the enumerations of voice, price point or channels; lib/agent is
missing from the sources. -/
inductive ValidationError where
  | unknownVoice (value : String)
  | unknownPricePoint (value : String)
  | unknownChannel (value : String)
  | channelsNotAList
  deriving DecidableEq

/-- Modelled from the spec: reading the voice of the form (§3, §7), by the
labels of the page's select (index.js:108-111). -/
def parseVoice (value : String) : Except ValidationError Voice :=
  if value = "Clear & Actionable" then .ok .clearActionable
  else if value = "Friendly & Encouraging" then .ok .friendlyEncouraging
  else if value = "Bold & Contrarian" then .ok .boldContrarian
  else if value = "Professional & Data-Driven" then .ok .professionalDataDriven
  else .error (.unknownVoice value)

/-- Modelled from the spec: reading the price point of the form (§3, §7);
an absent price point takes the middle bracket (§4.4). -/
def parsePricePoint (value : String) : Except ValidationError PricePoint :=
  if value = "" then .ok .mid
  else if value = "Low" then .ok .low
  else if value = "Mid" then .ok .mid
  else if value = "High" then .ok .high
  else .error (.unknownPricePoint value)

/-- Modelled from the spec: reading one channel of the form (§3, §7). -/
def parseChannel (value : String) : Except ValidationError Channel :=
  if value = "LinkedIn" then .ok .linkedIn
  else if value = "Twitter" then .ok .twitter
  else if value = "Instagram" then .ok .instagram
  else if value = "YouTube" then .ok .youTube
  else if value = "Email" then .ok .email
  else if value = "Blog" then .ok .blog
  else .error (.unknownChannel value)

/-- Modelled from the spec: reading the channels of the form; the first
unrecognised value is the error (§7). -/
def parseChannels : List String → Except ValidationError (List Channel)
  | [] => .ok []
  | value :: rest =>
    match parseChannel value with
    | .error err => .error err
    | .ok c =>
      match parseChannels rest with
      | .error err => .error err
      | .ok cs => .ok (c :: cs)

/-- Modelled from the spec: the validation of §7: the form is an
`InputProfile` when voice, price point and every channel are in their
enumerations; free text is taken as it is. -/
def validateProfile (form : Form) : Except ValidationError InputProfile :=
  match parseVoice form.voice, parsePricePoint form.pricePoint, form.channels with
  | .error err, _, _ => .error err
  | .ok _, .error err, _ => .error err
  | .ok _, .ok _, .text _ => .error .channelsNotAList
  | .ok v, .ok pp, .array items =>
    match parseChannels items with
    | .error err => .error err
    | .ok cs =>
      .ok { niche := form.niche, idealCustomer := form.idealCustomer, product := form.product,
            primaryGoal := form.primaryGoal, voice := v, pricePoint := pp, channels := cs,
            competitors := form.competitors, differentiator := form.differentiator }

/-- Modelled from the spec: the object `generateAll(form)` returns to the
page: the bundle of §3 and, under `inputs`, the form it was computed from.
The spec lists no field `inputs`; the page reads `result.inputs`
(index.js:22). -/
structure AgentResult where
  inputs : Form
  bundle : GeneratedBundle
  deriving DecidableEq

/-- Modelled from the spec: `generateAll` on the page's form object:
the validation of §7, then the generator of §6. -/
def generateAllOfForm (form : Form) : Except ValidationError AgentResult :=
  match validateProfile form with
  | .error err => .error err
  | .ok p => .ok { inputs := form, bundle := generateAll p }

/-- Modelled from the spec: `composeMarkdown` on the page's form object and
the object `generateAll` returned: the composer reads only the free-text
fields niche and product of the profile (§4.6). -/
def composeMarkdownOfForm (inputs : Form) (r : AgentResult) : String :=
  renderDocument inputs.niche inputs.product r.bundle

/-! ## Theorems about the page -/

/-! ### `toggleChannel` -/

theorem toggleChannel_channels (c : String) (form : Form) (cur : List String)
    (hcur : form.channels = .array cur) :
    (toggleChannel c form).channels =
      .array (if c ∈ cur then cur.filter (fun d => d != c) else cur ++ [c]) := by
  simp [toggleChannel, hcur]

theorem toggleChannel_twice_absent (c : String) (form : Form) (cur : List String)
    (hcur : form.channels = .array cur) (habsent : c ∉ cur) :
    toggleChannel c (toggleChannel c form) = form := by
  have hfilter : List.filter (fun d => d != c) cur = cur := by
    rw [List.filter_eq_self]
    intro d hd
    have : d ≠ c := fun h => habsent (h ▸ hd)
    simpa using this
  cases form
  simp only at hcur
  subst hcur
  simp [toggleChannel, habsent, List.filter_append, hfilter]

/-- C8: `toggleChannel` flips the membership of exactly one channel.  For a
form whose channels are the list `cur`, the new list `next` holds `c` iff
`cur` did not; every other channel is in `next` iff it was in `cur`, and the
other channels keep their order (the two lists agree once `c` is filtered
out); an absent `c` is appended at the end, a present `c` loses every
occurrence; toggling an absent channel twice gives back the original
form. -/
theorem toggleChannel_flips_one (c : String) (form : Form) (cur : List String)
    (hcur : form.channels = .array cur) :
    ∃ next, (toggleChannel c form).channels = .array next ∧
      (c ∈ next ↔ c ∉ cur) ∧
      (∀ d, d ≠ c → (d ∈ next ↔ d ∈ cur)) ∧
      next.filter (fun d => d != c) = cur.filter (fun d => d != c) ∧
      (c ∉ cur → next = cur ++ [c]) ∧
      (c ∈ cur → next = cur.filter (fun d => d != c) ∧ next.count c = 0) ∧
      (c ∉ cur → toggleChannel c (toggleChannel c form) = form) := by
  refine ⟨_, toggleChannel_channels c form cur hcur, ?_, ?_, ?_, ?_, ?_, ?_⟩
  · by_cases h : c ∈ cur <;> simp [h]
  · intro d hd
    by_cases h : c ∈ cur <;> simp [h, hd]
  · by_cases h : c ∈ cur <;> simp [h, List.filter_append]
  · intro h
    simp [h]
  · intro h
    simp [h, List.count_eq_zero]
  · exact toggleChannel_twice_absent c form cur hcur

/-- Witness for C8 at the initial form and the absent channel Blog. -/
theorem toggleChannel_flips_one_witness :
    initialForm.channels = .array ["LinkedIn", "Twitter", "Email"] ∧
    ∃ next, (toggleChannel "Blog" initialForm).channels = .array next ∧
      ("Blog" ∈ next ↔ "Blog" ∉ ["LinkedIn", "Twitter", "Email"]) ∧
      (∀ d, d ≠ "Blog" → (d ∈ next ↔ d ∈ ["LinkedIn", "Twitter", "Email"])) ∧
      next.filter (fun d => d != "Blog") =
        ["LinkedIn", "Twitter", "Email"].filter (fun d => d != "Blog") ∧
      ("Blog" ∉ ["LinkedIn", "Twitter", "Email"] →
        next = ["LinkedIn", "Twitter", "Email"] ++ ["Blog"]) ∧
      ("Blog" ∈ ["LinkedIn", "Twitter", "Email"] →
        next = ["LinkedIn", "Twitter", "Email"].filter (fun d => d != "Blog") ∧
          next.count "Blog" = 0) ∧
      ("Blog" ∉ ["LinkedIn", "Twitter", "Email"] →
        toggleChannel "Blog" (toggleChannel "Blog" initialForm) = initialForm) :=
  ⟨rfl, toggleChannel_flips_one "Blog" initialForm ["LinkedIn", "Twitter", "Email"] rfl⟩

/-! ### Reachable states -/

theorem run_append {ε β : Type} (gen : Form → Except ε β) (s : PageState β)
    (events : List Event) (e : Event) :
    run gen s (events ++ [e]) = step gen (run gen s events) e := by
  simp [run, List.foldl_append]

theorem run_cons {ε β : Type} (gen : Form → Except ε β) (s : PageState β)
    (e : Event) (events : List Event) :
    run gen s (e :: events) = run gen (step gen s e) events := rfl

theorem onChange_channels (name value : String) (form : Form) (hname : name ≠ "channels") :
    (onChange name value form).channels = form.channels := by
  unfold onChange
  split_ifs <;> rfl

theorem fieldNames_ne_channels (name : String) (hname : fieldNames.contains name = true) :
    name ≠ "channels" := by
  rintro rfl
  revert hname
  decide

theorem onGenerate_form {ε β : Type} (gen : Form → Except ε β) (s : PageState β) :
    (onGenerate gen s).state.form = s.form := by
  unfold onGenerate
  cases gen s.form <;> rfl

/-- The channels of the form are a list without repeats whose elements are
all in `channelOptions`. -/
theorem step_channels_recognised {ε β : Type} (gen : Form → Except ε β) (s : PageState β)
    (e : Event) (he : isUiEvent e = true)
    (hs : ∃ xs, s.form.channels = .array xs ∧ xs.Nodup ∧ ∀ x ∈ xs, x ∈ channelOptions) :
    ∃ xs, (step gen s e).form.channels = .array xs ∧ xs.Nodup ∧
      ∀ x ∈ xs, x ∈ channelOptions := by
  obtain ⟨xs, hxs, hnodup, hmem⟩ := hs
  cases e with
  | toggle c =>
    have hc : c ∈ channelOptions := by simpa [isUiEvent] using he
    refine ⟨_, toggleChannel_channels c s.form xs hxs, ?_, ?_⟩
    · by_cases h : c ∈ xs
      · simpa [h] using hnodup.filter _
      · simp only [h, if_false]
        exact List.Nodup.append hnodup (List.nodup_singleton c) (by simpa using h)
    · intro x hx
      by_cases h : c ∈ xs
      · simp only [h, if_true, List.mem_filter] at hx
        exact hmem x hx.1
      · simp only [h, if_false, List.mem_append, List.mem_singleton] at hx
        rcases hx with hx | rfl
        · exact hmem x hx
        · exact hc
  | change name value =>
    refine ⟨xs, ?_, hnodup, hmem⟩
    have hname : name ≠ "channels" := fieldNames_ne_channels name (by simpa [isUiEvent] using he)
    show (onChange name value s.form).channels = _
    rw [onChange_channels name value s.form hname, hxs]
  | generate =>
    refine ⟨xs, ?_, hnodup, hmem⟩
    show (onGenerate gen s).state.form.channels = _
    rw [onGenerate_form, hxs]
  | reset => exact ⟨xs, hxs, hnodup, hmem⟩
  | tab name => exact ⟨xs, hxs, hnodup, hmem⟩
  | copy => exact ⟨xs, hxs, hnodup, hmem⟩
  | download => exact ⟨xs, hxs, hnodup, hmem⟩

theorem run_channels_recognised {ε β : Type} (gen : Form → Except ε β) (events : List Event) :
    ∀ s : PageState β, (∀ e ∈ events, isUiEvent e = true) →
      (∃ xs, s.form.channels = .array xs ∧ xs.Nodup ∧ ∀ x ∈ xs, x ∈ channelOptions) →
      ∃ xs, (run gen s events).form.channels = .array xs ∧ xs.Nodup ∧
        ∀ x ∈ xs, x ∈ channelOptions := by
  induction events with
  | nil => intro s _ hs; exact hs
  | cons e rest ih =>
    intro s hev hs
    rw [run_cons]
    exact ih _ (fun e' he' => hev e' (List.mem_cons_of_mem _ he'))
      (step_channels_recognised gen s e (hev e (List.mem_cons_self _ _)) hs)

/-- C7: in every state reached from the initial one by events of the
rendered page (toggles of a channel of `channelOptions`, changes of one of
the eight named fields, and Generate, Reset, tab, copy and download clicks),
`form.channels` is a list without duplicates whose elements are all among
LinkedIn, Twitter, Instagram, YouTube, Email, Blog; this is the form
`onGenerate` hands to `generateAll`. -/
theorem channels_always_recognised {ε β : Type} (gen : Form → Except ε β)
    (events : List Event) (hui : ∀ e ∈ events, isUiEvent e = true) :
    ∃ xs, (run gen (initialState β) events).form.channels = .array xs ∧ xs.Nodup ∧
      ∀ x ∈ xs, x ∈ ["LinkedIn", "Twitter", "Instagram", "YouTube", "Email", "Blog"] :=
  run_channels_recognised gen events (initialState β) hui
    ⟨["LinkedIn", "Twitter", "Email"], rfl, by decide, by decide⟩

/-- Witness for C7: toggling Blog on, changing the voice, generating and
toggling LinkedIn off. -/
theorem channels_always_recognised_witness :
    (∀ e ∈ [Event.toggle "Blog", Event.change "voice" "Bold & Contrarian", Event.generate,
        Event.toggle "LinkedIn"], isUiEvent e = true) ∧
    ∃ xs, (run generateAllOfForm (initialState AgentResult)
        [Event.toggle "Blog", Event.change "voice" "Bold & Contrarian", Event.generate,
          Event.toggle "LinkedIn"]).form.channels = .array xs ∧ xs.Nodup ∧
      ∀ x ∈ xs, x ∈ ["LinkedIn", "Twitter", "Instagram", "YouTube", "Email", "Blog"] :=
  ⟨by decide, channels_always_recognised generateAllOfForm _ (by decide)⟩

/-! ### `onGenerate` -/

theorem onGenerate_error {ε β : Type} (gen : Form → Except ε β) (s : PageState β) (err : ε)
    (hfail : gen s.form = .error err) :
    onGenerate gen s =
      { state := { form := s.form, result := s.result, activeTab := s.activeTab,
                   isGenerating := false },
        rejected := some err } := by
  simp [onGenerate, hfail]

theorem onGenerate_ok {ε β : Type} (gen : Form → Except ε β) (s : PageState β) (out : β)
    (hok : gen s.form = .ok out) :
    onGenerate gen s =
      { state := { form := s.form, result := some out, activeTab := "plan",
                   isGenerating := false },
        rejected := none } := by
  simp [onGenerate, hok]

/-- C9: `onGenerate` is atomic on failure and always clears the busy flag.
If `generateAll(form)` throws, `result` and `activeTab` are as before the
call, `isGenerating` ends false and the error leaves the handler; if it
returns, `result` is the returned bundle, `activeTab` is `plan` and
`isGenerating` ends false.  In both cases `form` is unchanged. -/
theorem onGenerate_atomic {ε β : Type} (gen : Form → Except ε β) (s : PageState β) :
    (∀ err, gen s.form = .error err →
      (onGenerate gen s).state.result = s.result ∧
      (onGenerate gen s).state.activeTab = s.activeTab ∧
      (onGenerate gen s).state.isGenerating = false ∧
      (onGenerate gen s).state.form = s.form ∧
      (onGenerate gen s).rejected = some err) ∧
    (∀ out, gen s.form = .ok out →
      (onGenerate gen s).state.result = some out ∧
      (onGenerate gen s).state.activeTab = "plan" ∧
      (onGenerate gen s).state.isGenerating = false ∧
      (onGenerate gen s).state.form = s.form ∧
      (onGenerate gen s).rejected = none) := by
  constructor
  · intro err hfail
    rw [onGenerate_error gen s err hfail]
    exact ⟨rfl, rfl, rfl, rfl, rfl⟩
  · intro out hok
    rw [onGenerate_ok gen s out hok]
    exact ⟨rfl, rfl, rfl, rfl, rfl⟩

/-- Modelled run for C9: the initial form is accepted by the validation of
the agent, the same form with the voice `Loud` is rejected. -/
theorem onGenerate_atomic_witness :
    (∃ out, generateAllOfForm initialForm = .ok out ∧
      (onGenerate generateAllOfForm (initialState AgentResult)).state.result = some out ∧
      (onGenerate generateAllOfForm (initialState AgentResult)).state.activeTab = "plan") ∧
    (onGenerate generateAllOfForm
      { form := onChange "voice" "Loud" initialForm, result := none, activeTab := "profile",
        isGenerating := false }).state.activeTab = "profile" := by
  constructor
  · refine ⟨⟨initialForm, generateAll _⟩, rfl, ?_⟩
    have h := (onGenerate_atomic generateAllOfForm (initialState AgentResult)).2
      ⟨initialForm, generateAll _⟩ rfl
    exact ⟨h.1, h.2.1⟩
  · exact ((onGenerate_atomic generateAllOfForm
      { form := onChange "voice" "Loud" initialForm, result := none, activeTab := "profile",
        isGenerating := false }).1 (.unknownVoice "Loud") rfl).2.1

/-! ### `markdown` and the handlers that leave `result` alone -/

theorem concatAll_data (parts : List String) :
    (concatAll parts).data = (parts.map String.data).flatten := by
  induction parts with
  | nil => rfl
  | cons part rest ih => simp [concatAll, ih]

theorem containsText_concatAll {parts : List String} {part text : String}
    (hpart : part ∈ parts) (htext : containsText part text) :
    containsText (concatAll parts) text := by
  unfold containsText at *
  rw [concatAll_data]
  exact htext.trans (List.infix_of_mem_flatten (List.mem_map_of_mem _ hpart))

theorem containsText_self (text : String) : containsText text text :=
  List.infix_refl _

theorem renderDocument_ne_empty (niche product : String) (b : GeneratedBundle) :
    renderDocument niche product b ≠ "" := by
  intro h
  have hdata := congrArg String.data h
  simp [renderDocument, concatAll] at hdata

/-- C10: the exported markdown depends on the stored result only.  Given
that `composeMarkdown` never returns the empty string, `markdown` is empty
exactly when `result` is null, and then `copyMarkdown` and
`downloadMarkdown` do nothing.  `onChange` and `toggleChannel` change only
`form`, a tab switch changes only `activeTab`; all three leave `result` and
with it `markdown` unchanged.  `resetAll` sets `result` to null and
`activeTab` to `inputs` and leaves `form` (and the busy flag) as they
were. -/
theorem markdown_depends_on_result {ε ι β : Type} (gen : Form → Except ε β)
    (compose : ι → β → String) (inputs : β → ι)
    (hcompose : ∀ i r, compose i r ≠ "") (s : PageState β) :
    (markdown compose inputs s.result = "" ↔ s.result = none) ∧
    (s.result = none →
      copyMarkdown (markdown compose inputs s.result) = [] ∧
      downloadMarkdown (markdown compose inputs s.result) = []) ∧
    (∀ name value,
      step gen s (.change name value) = { s with form := onChange name value s.form } ∧
      markdown compose inputs (step gen s (.change name value)).result =
        markdown compose inputs s.result) ∧
    (∀ channel,
      step gen s (.toggle channel) = { s with form := toggleChannel channel s.form } ∧
      markdown compose inputs (step gen s (.toggle channel)).result =
        markdown compose inputs s.result) ∧
    (∀ name,
      step gen s (.tab name) = { s with activeTab := name } ∧
      markdown compose inputs (step gen s (.tab name)).result =
        markdown compose inputs s.result) ∧
    (resetAll s).result = none ∧ (resetAll s).activeTab = "inputs" ∧
    (resetAll s).form = s.form ∧ (resetAll s).isGenerating = s.isGenerating := by
  refine ⟨?_, ?_, fun _ _ => ⟨rfl, rfl⟩, fun _ => ⟨rfl, rfl⟩, fun _ => ⟨rfl, rfl⟩,
    rfl, rfl, rfl, rfl⟩
  · cases h : s.result with
    | none => simp [markdown]
    | some r => simpa [markdown] using hcompose (inputs r) r
  · intro h
    rw [h]
    exact ⟨rfl, rfl⟩

/-- Witness for C10 with the composer modelled from the spec, whose output
starts with the title line: the initial page after the niche was edited. -/
theorem markdown_depends_on_result_witness :
    (∀ (i : Form) (r : AgentResult), composeMarkdownOfForm i r ≠ "") ∧
    (markdown composeMarkdownOfForm AgentResult.inputs
        (step generateAllOfForm (initialState AgentResult) (.change "niche" "SaaS")).result
      = "") ∧
    (resetAll (step generateAllOfForm (initialState AgentResult)
        (.change "niche" "SaaS"))).form = onChange "niche" "SaaS" initialForm :=
  have h := markdown_depends_on_result generateAllOfForm composeMarkdownOfForm
    AgentResult.inputs (fun i r => renderDocument_ne_empty i.niche i.product r.bundle)
    (step generateAllOfForm (initialState AgentResult) (.change "niche" "SaaS"))
  ⟨fun i r => renderDocument_ne_empty i.niche i.product r.bundle, h.1.2 rfl,
    h.2.2.2.2.2.2.2.1⟩

/-! ### The markdown of a stored result -/

theorem step_result_cases {ε β : Type} (gen : Form → Except ε β) (s : PageState β) (e : Event)
    (r : β) (hr : (step gen s e).result = some r) :
    (e = .generate ∧ gen s.form = .ok r) ∨ s.result = some r := by
  cases e with
  | generate =>
    cases hgen : gen s.form with
    | ok out =>
      left
      have h := onGenerate_ok gen s out hgen
      simp only [step, h] at hr
      exact ⟨rfl, by rw [Option.some.inj hr]⟩
    | error err =>
      right
      have h := onGenerate_error gen s err hgen
      simpa only [step, h] using hr
  | reset => exact Option.noConfusion hr
  | toggle c => exact Or.inr hr
  | change name value => exact Or.inr hr
  | tab name => exact Or.inr hr
  | copy => exact Or.inr hr
  | download => exact Or.inr hr

theorem run_result_origin {ε β : Type} (gen : Form → Except ε β) (s0 : PageState β)
    (hs0 : s0.result = none) (events : List Event) :
    ∀ r, (run gen s0 events).result = some r →
      ∃ before after, events = before ++ Event.generate :: after ∧
        gen (run gen s0 before).form = .ok r := by
  induction events using List.reverseRecOn with
  | nil =>
    intro r hr
    rw [show run gen s0 [] = s0 from rfl, hs0] at hr
    exact Option.noConfusion hr
  | append_singleton events e ih =>
    intro r hr
    rw [run_append] at hr
    rcases step_result_cases gen _ e r hr with ⟨rfl, hgen⟩ | hprev
    · exact ⟨events, [], rfl, hgen⟩
    · obtain ⟨before, after, hsplit, hgen⟩ := ih r hprev
      exact ⟨before, after ++ [e], by simp [hsplit], hgen⟩

/-- C6: whenever a result is present, the markdown the page computes is
`composeMarkdown` applied to the form that was passed to `generateAll` at
the Generate click that produced the result, together with that result.
The page reads the profile back as `result.inputs`; the hypothesis is that
`generateAll(p).inputs` is `p`. -/
theorem markdown_of_generated {ε β : Type} (gen : Form → Except ε β)
    (compose : Form → β → String) (inputs : β → Form)
    (hinputs : ∀ p r, gen p = .ok r → inputs r = p) (events : List Event) (r : β)
    (hresult : (run gen (initialState β) events).result = some r) :
    ∃ before after, events = before ++ Event.generate :: after ∧
      gen (run gen (initialState β) before).form = .ok r ∧
      markdown compose inputs (run gen (initialState β) events).result =
        compose (run gen (initialState β) before).form r := by
  obtain ⟨before, after, hsplit, hgen⟩ :=
    run_result_origin gen (initialState β) rfl events r hresult
  refine ⟨before, after, hsplit, hgen, ?_⟩
  rw [hresult]
  show compose (inputs r) r = _
  rw [hinputs _ r hgen]

theorem generateAllOfForm_inputs (p : Form) (r : AgentResult)
    (hok : generateAllOfForm p = .ok r) : r.inputs = p := by
  unfold generateAllOfForm at hok
  split at hok
  · exact Except.noConfusion hok
  · cases hok
    rfl

/-- Witness for C6 with the agent modelled from the spec: Blog is toggled
on, the plan is generated, then the niche is edited; the markdown is still
composed from the form of the Generate click. -/
theorem markdown_of_generated_witness :
    (∀ p r, generateAllOfForm p = .ok r → r.inputs = p) ∧
    (run generateAllOfForm (initialState AgentResult)
        [.toggle "Blog", .generate, .change "niche" "SaaS"]).result =
      some ⟨toggleChannel "Blog" initialForm,
        generateAll
          { niche := "Coaching", idealCustomer := "Busy founders",
            product := "Marketing strategy + content engine",
            primaryGoal := "More qualified leads", voice := .clearActionable,
            pricePoint := .mid, channels := [.linkedIn, .twitter, .email, .blog],
            competitors := "", differentiator := "Simple frameworks that ship weekly results" }⟩ ∧
    ∃ before after,
      [Event.toggle "Blog", Event.generate, Event.change "niche" "SaaS"] =
        before ++ Event.generate :: after ∧
      markdown composeMarkdownOfForm AgentResult.inputs
          (run generateAllOfForm (initialState AgentResult)
            [.toggle "Blog", .generate, .change "niche" "SaaS"]).result =
        composeMarkdownOfForm (run generateAllOfForm (initialState AgentResult) before).form
          ⟨toggleChannel "Blog" initialForm,
            generateAll
              { niche := "Coaching", idealCustomer := "Busy founders",
                product := "Marketing strategy + content engine",
                primaryGoal := "More qualified leads", voice := .clearActionable,
                pricePoint := .mid, channels := [.linkedIn, .twitter, .email, .blog],
                competitors := "",
                differentiator := "Simple frameworks that ship weekly results" }⟩ :=
  have h := markdown_of_generated generateAllOfForm composeMarkdownOfForm AgentResult.inputs
    generateAllOfForm_inputs [.toggle "Blog", .generate, .change "niche" "SaaS"] _ rfl
  ⟨generateAllOfForm_inputs, rfl, h.imp fun _ h1 => h1.imp fun _ h2 => ⟨h2.1, h2.2.2⟩⟩

/-! ## Theorems about the modelled pipeline -/

theorem schedule_length (p : InputProfile) : (schedule p).length = 30 := by
  simp [schedule]

theorem schedule_getElem? (p : InputProfile) (i : Nat) (hi : i < 30) :
    (schedule p)[i]? =
      some { day := i + 1, idea := ideaFor p (i + 1), cta := ctaFor p,
             repurpose := repurposeFor p (i + 1) } := by
  simp [schedule, List.getElem?_map, List.getElem?_range hi]

theorem schedule_days (p : InputProfile) :
    (schedule p).map ContentPlanDay.day = List.range' 1 30 := by
  have hday : (schedule p).map ContentPlanDay.day = (List.range 30).map fun i => i + 1 := by
    simp only [schedule, List.map_map]
    rfl
  rw [hday]
  decide

theorem mem_schedule (p : InputProfile) (d : ContentPlanDay) :
    d ∈ schedule p ↔
      ∃ i, i < 30 ∧ d = { day := i + 1, idea := ideaFor p (i + 1), cta := ctaFor p,
                          repurpose := repurposeFor p (i + 1) } := by
  simp only [schedule, List.mem_map, List.mem_range]
  constructor
  · rintro ⟨i, hi, rfl⟩
    exact ⟨i, hi, rfl⟩
  · rintro ⟨i, hi, rfl⟩
    exact ⟨i, hi, rfl⟩

/-- C1: for every input profile the content plan has exactly 30 entries and
the entry at index `i` (from 0) has `day = i + 1`: the days are 1..30 in
ascending order, without gaps or repeats. -/
theorem contentPlan_days (p : InputProfile) :
    (generateAll p).contentPlan.length = 30 ∧
    (∀ i, i < 30 → ((generateAll p).contentPlan[i]?).map ContentPlanDay.day = some (i + 1)) ∧
    (generateAll p).contentPlan.map ContentPlanDay.day = List.range' 1 30 ∧
    ((generateAll p).contentPlan.map ContentPlanDay.day).Nodup := by
  refine ⟨schedule_length p, ?_, schedule_days p, ?_⟩
  · intro i hi
    show ((schedule p)[i]?).map ContentPlanDay.day = some (i + 1)
    rw [schedule_getElem? p i hi]
    rfl
  · show ((schedule p).map ContentPlanDay.day).Nodup
    rw [schedule_days]
    decide

theorem mem_selectedChannels (p : InputProfile) (c : Channel) :
    c ∈ selectedChannels p ↔ c ∈ p.channels := by
  have hall : c ∈ allChannels := by cases c <;> decide
  simp [selectedChannels, hall]

theorem selectedChannels_nodup (p : InputProfile) : (selectedChannels p).Nodup :=
  List.Nodup.filter _ (by decide)

theorem selectedChannels_length (p : InputProfile) :
    (selectedChannels p).length = p.channels.toFinset.card := by
  rw [← List.toFinset_card_of_nodup (selectedChannels_nodup p)]
  congr 1
  ext c
  simp [mem_selectedChannels]

theorem mem_repurposeFor (p : InputProfile) (day : Nat) (r : RepurposeEntry)
    (hr : r ∈ repurposeFor p day) : r.channel ∈ p.channels := by
  simp only [repurposeFor, List.mem_map] at hr
  obtain ⟨c, hc, rfl⟩ := hr
  have h1 : c ∈ (selectedChannels p).rotate (day - 1) := List.mem_of_mem_take hc
  rw [List.mem_rotate] at h1
  exact (mem_selectedChannels p c).1 h1

theorem repurposeFor_of_no_channels (p : InputProfile) (day : Nat) (hnone : p.channels = []) :
    repurposeFor p day = [] := by
  have hsel : selectedChannels p = [] := by
    simp [selectedChannels, hnone]
  simp [repurposeFor, hsel]

theorem generateAllOfForm_no_channels (form : Form) (v : Voice) (pp : PricePoint)
    (hchannels : form.channels = .array []) (hvoice : parseVoice form.voice = .ok v)
    (hprice : parsePricePoint form.pricePoint = .ok pp) :
    generateAllOfForm form =
      .ok { inputs := form,
            bundle := generateAll
              { niche := form.niche, idealCustomer := form.idealCustomer,
                product := form.product, primaryGoal := form.primaryGoal, voice := v,
                pricePoint := pp, channels := [], competitors := form.competitors,
                differentiator := form.differentiator } } := by
  simp [generateAllOfForm, validateProfile, hchannels, hvoice, hprice, parseChannels]

/-- C2: every channel in the repurpose list of a day of the plan is a member
of the profile's channels; with no channels selected the generator still
returns its 30 entries and each has an empty repurpose list, and a form with
an empty channel list (and a voice and price point of the enumerations)
passes validation, so that no error is raised. -/
theorem repurpose_within_channels (p : InputProfile) :
    (∀ d ∈ (generateAll p).contentPlan, ∀ r ∈ d.repurpose, r.channel ∈ p.channels) ∧
    (p.channels = [] →
      (generateAll p).contentPlan.length = 30 ∧
      ∀ d ∈ (generateAll p).contentPlan, d.repurpose = []) ∧
    (∀ (form : Form) (v : Voice) (pp : PricePoint), form.channels = .array [] →
      parseVoice form.voice = .ok v → parsePricePoint form.pricePoint = .ok pp →
      ∃ out, generateAllOfForm form = .ok out ∧ out.bundle.contentPlan.length = 30 ∧
        ∀ d ∈ out.bundle.contentPlan, d.repurpose = []) := by
  refine ⟨?_, ?_, ?_⟩
  · intro d hd r hr
    obtain ⟨i, _, rfl⟩ := (mem_schedule p d).1 hd
    exact mem_repurposeFor p (i + 1) r hr
  · intro hnone
    refine ⟨schedule_length p, ?_⟩
    intro d hd
    obtain ⟨i, _, rfl⟩ := (mem_schedule p d).1 hd
    exact repurposeFor_of_no_channels p (i + 1) hnone
  · intro form v pp hchannels hvoice hprice
    refine ⟨_, generateAllOfForm_no_channels form v pp hchannels hvoice hprice,
      schedule_length _, ?_⟩
    intro d hd
    obtain ⟨i, _, rfl⟩ := (mem_schedule _ d).1 hd
    exact repurposeFor_of_no_channels _ (i + 1) rfl

/-! ### Coverage of the rotation -/

theorem rotation_hits (a j n : Nat) (hj : j < n) :
    (a + (j + n - a % n) % n) % n = j := by
  have hpos : 0 < n := Nat.lt_of_le_of_lt (Nat.zero_le j) hj
  have ha : a % n < n := Nat.mod_lt _ hpos
  calc (a + (j + n - a % n) % n) % n
      = (a % n + (j + n - a % n) % n % n) % n := Nat.add_mod _ _ _
    _ = (a % n % n + (j + n - a % n) % n) % n := by rw [Nat.mod_mod, Nat.mod_mod]
    _ = (a % n + (j + n - a % n)) % n := (Nat.add_mod _ _ _).symm
    _ = (j + n) % n := by congr 1; omega
    _ = j := by rw [Nat.add_mod_right, Nat.mod_eq_of_lt hj]

theorem repurposeFor_first (p : InputProfile) (day j : Nat) (c : Channel)
    (hj : (selectedChannels p)[j]? = some c)
    (hday : (day - 1) % (selectedChannels p).length = j) :
    ∃ r ∈ repurposeFor p day, r.channel = c := by
  have hlen : j < (selectedChannels p).length := by
    by_contra hge
    rw [List.getElem?_eq_none (Nat.le_of_not_lt hge)] at hj
    exact Option.noConfusion hj
  have hpos : 0 < (selectedChannels p).length := Nat.lt_of_le_of_lt (Nat.zero_le j) hlen
  have hhead : (((selectedChannels p).rotate (day - 1)).take repurposePerDay)[0]? = some c := by
    rw [List.getElem?_take_of_lt (by decide), List.getElem?_rotate hpos, Nat.zero_add, hday, hj]
  refine ⟨{ channel := c, format := c.format }, ?_, rfl⟩
  simp only [repurposeFor, List.mem_map]
  exact ⟨c, List.getElem?_mem hhead, rfl⟩

/-- C3: for a profile whose channel set has between 1 and 7 members and a
start day `s` with `1 ≤ s ≤ 24`, every member of the channels appears in the
repurpose list of at least one of the plan entries for the days
`s .. s + 6`. -/
theorem coverage_in_every_week (p : InputProfile)
    (hcount : 1 ≤ p.channels.toFinset.card ∧ p.channels.toFinset.card ≤ 7)
    (s : Nat) (hs : 1 ≤ s ∧ s ≤ 24) :
    ∀ c ∈ p.channels, ∃ d ∈ (generateAll p).contentPlan,
      s ≤ d.day ∧ d.day ≤ s + 6 ∧ ∃ r ∈ d.repurpose, r.channel = c := by
  intro c hc
  have hlen7 : (selectedChannels p).length ≤ 7 := by
    rw [selectedChannels_length]
    exact hcount.2
  obtain ⟨j, hj⟩ := List.getElem?_of_mem ((mem_selectedChannels p c).2 hc)
  have hjlt : j < (selectedChannels p).length := by
    by_contra hge
    rw [List.getElem?_eq_none (Nat.le_of_not_lt hge)] at hj
    exact Option.noConfusion hj
  have hpos : 0 < (selectedChannels p).length := Nat.lt_of_le_of_lt (Nat.zero_le j) hjlt
  have hk : (j + (selectedChannels p).length - (s - 1) % (selectedChannels p).length)
      % (selectedChannels p).length < (selectedChannels p).length := Nat.mod_lt _ hpos
  have hhit := rotation_hits (s - 1) j (selectedChannels p).length hjlt
  generalize (j + (selectedChannels p).length - (s - 1) % (selectedChannels p).length)
      % (selectedChannels p).length = k at hk hhit
  refine ⟨{ day := s - 1 + k + 1, idea := ideaFor p (s - 1 + k + 1), cta := ctaFor p,
            repurpose := repurposeFor p (s - 1 + k + 1) }, ?_, ?_, ?_, ?_⟩
  · exact (mem_schedule p _).2 ⟨s - 1 + k, by omega, rfl⟩
  · show s ≤ s - 1 + k + 1
    omega
  · show s - 1 + k + 1 ≤ s + 6
    omega
  · exact repurposeFor_first p (s - 1 + k + 1) j c hj (by rw [Nat.add_sub_cancel]; exact hhit)

/-- Witness for C3: the channels LinkedIn and Email (listed twice and out
of order) and the last week, days 24..30. -/
theorem coverage_in_every_week_witness :
    (1 ≤ ([Channel.email, Channel.linkedIn, Channel.email] : List Channel).toFinset.card ∧
      ([Channel.email, Channel.linkedIn, Channel.email] : List Channel).toFinset.card ≤ 7) ∧
    (1 ≤ 24 ∧ 24 ≤ 24) ∧
    ∀ c ∈ [Channel.email, Channel.linkedIn, Channel.email],
      ∃ d ∈ (generateAll
          { niche := "Coaching", idealCustomer := "Busy founders", product := "Content engine",
            primaryGoal := "More qualified leads", voice := .boldContrarian,
            pricePoint := .high, channels := [.email, .linkedIn, .email], competitors := "",
            differentiator := "" }).contentPlan,
        24 ≤ d.day ∧ d.day ≤ 24 + 6 ∧ ∃ r ∈ d.repurpose, r.channel = c :=
  ⟨by decide, by decide,
    coverage_in_every_week
      { niche := "Coaching", idealCustomer := "Busy founders", product := "Content engine",
        primaryGoal := "More qualified leads", voice := .boldContrarian,
        pricePoint := .high, channels := [.email, .linkedIn, .email], competitors := "",
        differentiator := "" } (by decide) 24 (by decide)⟩

/-! ### Markdown containment -/

theorem escapeChars_of_clean (cs : List Char)
    (hclean : ∀ c ∈ cs, isMarkdownControl c = false) : escapeChars cs = cs := by
  induction cs with
  | nil => rfl
  | cons c rest ih =>
    have hc : isMarkdownControl c = false := hclean c (List.mem_cons_self _ _)
    have hbreak : (c == '\n' || c == '\r') = false := by
      simp only [isMarkdownControl, Bool.or_eq_false_iff] at hc
      simp [hc.1.2, hc.2]
    have hrest : escapeChars rest = rest :=
      ih fun d hd => hclean d (List.mem_cons_of_mem _ hd)
    simp [escapeChars, escapeChar, hbreak, hc, hrest]

theorem escapeText_of_clean (text : String)
    (hclean : ∀ c ∈ text.data, isMarkdownControl c = false) : escapeText text = text := by
  unfold escapeText
  rw [escapeChars_of_clean text.data hclean]

theorem containsText_renderDocument_summary (niche product : String) (b : GeneratedBundle) :
    containsText (renderDocument niche product b) (escapeText b.customerProfile.summary) :=
  containsText_concatAll (by simp) (containsText_self _)

theorem containsText_renderDocument_category (niche product : String) (b : GeneratedBundle)
    (g : PainPointGroup) (hg : g ∈ b.painPoints) :
    containsText (renderDocument niche product b) (escapeText g.category) := by
  have hblock : containsText (painBlock g) (escapeText g.category) :=
    containsText_concatAll (by simp) (containsText_self _)
  have hsection : containsText (concatAll (b.painPoints.map painBlock)) (escapeText g.category) :=
    containsText_concatAll (List.mem_map_of_mem _ hg) hblock
  exact containsText_concatAll (by simp) hsection

theorem containsText_renderDocument_offer (niche product : String) (b : GeneratedBundle)
    (o : OfferTier) (ho : o ∈ b.offerLadder) :
    containsText (renderDocument niche product b) (escapeText o.name) := by
  have hblock : containsText (offerBlock o) (escapeText o.name) :=
    containsText_concatAll (by simp) (containsText_self _)
  have hsection : containsText (concatAll (b.offerLadder.map offerBlock)) (escapeText o.name) :=
    containsText_concatAll (List.mem_map_of_mem _ ho) hblock
  exact containsText_concatAll (by simp) hsection

theorem extract_category_clean (p : InputProfile) (g : PainPointGroup) (hg : g ∈ extract p) :
    escapeText g.category = g.category := by
  simp only [extract, List.mem_cons, List.mem_singleton, List.not_mem_nil, or_false] at hg
  rcases hg with rfl | rfl | rfl | rfl <;> rfl

theorem build_name_clean (p : InputProfile) (o : OfferTier) (ho : o ∈ build p) :
    escapeText o.name = o.name := by
  cases hpp : p.pricePoint <;>
    simp only [build, hpp, PricePoint.bracket, List.zip_cons_cons, List.zip_nil_right,
      List.map_cons, List.map_nil, List.mem_cons, List.mem_singleton, List.not_mem_nil,
      or_false] at ho <;>
    rcases ho with rfl | rfl | rfl <;> rfl

/-- C4, as the composer of §4.6 has it: for every input profile `p` and the
bundle `b = generateAll p`, the string `composeMarkdown p b` contains the
category of every pain-point group and the name of every offer tier of `b`
as substrings, and it contains the summary of the customer profile in its
escaped form; the literal summary is a substring whenever it holds no
markdown control character. -/
theorem composeMarkdown_contains_escaped (p : InputProfile) :
    containsText (composeMarkdown p (generateAll p))
      (escapeText (generateAll p).customerProfile.summary) ∧
    (∀ g ∈ (generateAll p).painPoints,
      containsText (composeMarkdown p (generateAll p)) g.category) ∧
    (∀ o ∈ (generateAll p).offerLadder,
      containsText (composeMarkdown p (generateAll p)) o.name) ∧
    ((∀ c ∈ (generateAll p).customerProfile.summary.data, isMarkdownControl c = false) →
      containsText (composeMarkdown p (generateAll p))
        (generateAll p).customerProfile.summary) := by
  refine ⟨containsText_renderDocument_summary _ _ _, ?_, ?_, ?_⟩
  · intro g hg
    have h := containsText_renderDocument_category p.niche p.product (generateAll p) g hg
    rwa [extract_category_clean p g hg] at h
  · intro o ho
    have h := containsText_renderDocument_offer p.niche p.product (generateAll p) o ho
    rwa [build_name_clean p o ho] at h
  · intro hclean
    have h := containsText_renderDocument_summary p.niche p.product (generateAll p)
    rwa [escapeText_of_clean _ hclean] at h

theorem pairFree_append (x y : Char) (before after : List Char) :
    pairFree x y (before ++ x :: y :: after) = false := by
  induction before with
  | nil => simp [pairFree]
  | cons a rest ih =>
    cases rest with
    | nil => simp [pairFree]
    | cons b rest => simpa [pairFree] using fun _ => ih

theorem not_infix_of_pairFree (x y : Char) (text : List Char)
    (hfree : pairFree x y text = true) : ¬ [x, y] <:+: text := by
  rintro ⟨before, after, rfl⟩
  rw [List.append_assoc, List.cons_append, List.cons_append, List.nil_append,
    pairFree_append] at hfree
  exact Bool.noConfusion hfree

set_option maxRecDepth 100000 in
/-- Counterexample to C4 as stated: with the niche `C#` the summary holds a
number sign right after the letter C, the composer writes every number sign
of the summary escaped, and the literal summary is not a substring of the
document. -/
theorem composeMarkdown_contains_counterexample :
    ¬ containsText
      (composeMarkdown
        { niche := "C#", idealCustomer := "Busy founders", product := "Content engine",
          primaryGoal := "More qualified leads", voice := .clearActionable, pricePoint := .mid,
          channels := [.linkedIn], competitors := "", differentiator := "Weekly results" }
        (generateAll
          { niche := "C#", idealCustomer := "Busy founders", product := "Content engine",
            primaryGoal := "More qualified leads", voice := .clearActionable,
            pricePoint := .mid, channels := [.linkedIn], competitors := "",
            differentiator := "Weekly results" }))
      (generateAll
        { niche := "C#", idealCustomer := "Busy founders", product := "Content engine",
          primaryGoal := "More qualified leads", voice := .clearActionable, pricePoint := .mid,
          channels := [.linkedIn], competitors := "",
          differentiator := "Weekly results" }).customerProfile.summary := by
  intro hcontains
  have hpair : [ 'C', '#'] <:+:
      (generateAll
        { niche := "C#", idealCustomer := "Busy founders", product := "Content engine",
          primaryGoal := "More qualified leads", voice := .clearActionable, pricePoint := .mid,
          channels := [.linkedIn], competitors := "",
          differentiator := "Weekly results" }).customerProfile.summary.data :=
    ⟨"In short: Busy founders in ".data, " want More qualified leads.".data, by decide⟩
  exact not_infix_of_pairFree 'C' '#' _ (by decide!) (hpair.trans hcontains)

end MarketingCoach
